import Mathlib

/-!
Verification of the passman backend (Rust) against its specification.

The development shallowly embeds the modules `crypto.rs`, `storage.rs`,
`auth.rs` and `models.rs` of the backend crate.  Byte strings are modelled
as `List Nat`, timestamps (`Instant`, `DateTime<Utc>`) as `Nat`, and
`Uuid` as `Nat`.  External libraries (the AES-GCM AEAD cipher, the Argon2
hash, serde_json) are not part of the repository: the AEAD cipher is
modelled as an explicit parameter together with its correctness contract,
and serde_json serialization of the derived types is modelled by an
executable injective codec with a proven round-trip.
-/

/-- Byte strings (`&[u8]` / `Vec<u8>`) are lists of naturals. -/
abbrev Bytes := List Nat

/-- The error enum `PassManError` from `lib.rs` (payloads reduced to the
message string where the Rust payload is a formatted string). -/
inductive PassManError where
  | AuthenticationFailed (msg : String)
  | EncryptionError (msg : String)
  | StorageError (msg : String)
  | VaultNotFound (msg : String)
  | AccountNotFound (msg : String)
  | InvalidInput (msg : String)
  | IoError (msg : String)
  | SerializationError (msg : String)
  | CryptoError (msg : String)
deriving DecidableEq, Repr

/-- Error categories: the variant of `PassManError`, forgetting the message. -/
inductive ErrCategory where
  | auth | encryption | storage | vaultNotFound | accountNotFound
  | invalidInput | io | serialization | crypto
deriving DecidableEq, Repr

/-- Category (variant) of an error value. -/
def PassManError.category : PassManError → ErrCategory
  | .AuthenticationFailed _ => .auth
  | .EncryptionError _ => .encryption
  | .StorageError _ => .storage
  | .VaultNotFound _ => .vaultNotFound
  | .AccountNotFound _ => .accountNotFound
  | .InvalidInput _ => .invalidInput
  | .IoError _ => .io
  | .SerializationError _ => .serialization
  | .CryptoError _ => .crypto

/-- Category of a `Result` value: `some` category on error, `none` on success. -/
def resultCategory {α : Type} : Except PassManError α → Option ErrCategory
  | .error e => some e.category
  | .ok _ => none

/-- Constant `NONCE_SIZE` from `crypto.rs` (96-bit AES-GCM nonce). -/
def NONCE_SIZE : Nat := 12

/-- Constant `SALT_SIZE` from `crypto.rs` (128-bit Argon2 salt). -/
def SALT_SIZE : Nat := 16

/-- An AEAD cipher: the external `aes_gcm::Aes256Gcm` dependency, modelled as
explicit encryption and decryption functions over (key, nonce, payload).
Decryption is fallible (`none` models a tag verification failure). -/
structure AEAD where
  enc : Bytes → Bytes → Bytes → Bytes
  dec : Bytes → Bytes → Bytes → Option Bytes

/-- Contract of an AEAD cipher: decrypting an encryption under the same key
and nonce recovers the payload. -/
def AEAD.Correct (A : AEAD) : Prop :=
  ∀ k n p, A.dec k n (A.enc k n p) = some p

/-- `CryptoManager::encrypt_with_key` from `crypto.rs`: encrypt under `key`
with a fresh random nonce (the nonce, drawn by `generate_nonce`, is an
explicit parameter here) and prepend the nonce to the ciphertext. -/
def encrypt_with_key (A : AEAD) (nonce data key : Bytes) : Bytes :=
  nonce ++ A.enc key nonce data

/-- `CryptoManager::decrypt_with_key` from `crypto.rs`: reject inputs shorter
than `NONCE_SIZE`, split off the nonce, decrypt the remainder, and map a
cipher failure to `CryptoError`. -/
def decrypt_with_key (A : AEAD) (encrypted_data key : Bytes) : Except PassManError Bytes :=
  if encrypted_data.length < NONCE_SIZE then
    .error (.CryptoError "Invalid encrypted data: too short")
  else
    match A.dec key (encrypted_data.take NONCE_SIZE) (encrypted_data.drop NONCE_SIZE) with
    | some plaintext => .ok plaintext
    | none => .error (.CryptoError "Decryption failed")

/-- Taking the length of the left summand of an append returns it. -/
theorem take_append_self {α : Type} (s r : List α) : (s ++ r).take s.length = s := by
  induction s with
  | nil => simp
  | cons a t ih => simp [ih]

/-- Dropping the length of the left summand of an append returns the right one. -/
theorem drop_append_self {α : Type} (s r : List α) : (s ++ r).drop s.length = r := by
  induction s with
  | nil => simp
  | cons a t ih => simp [ih]

/-- A concrete AEAD instance used to instantiate witnesses: the tag is the sum
of key and nonce bytes, prepended to the payload; decryption checks it. -/
def toyAEAD : AEAD where
  enc := fun k n p => (k.sum + n.sum) :: p
  dec := fun k n c =>
    match c with
    | [] => none
    | t :: p => if t = k.sum + n.sum then some p else none

/-- The toy AEAD instance satisfies the AEAD contract. -/
theorem toyAEAD_correct : toyAEAD.Correct := by
  intro k n p
  simp [toyAEAD]

/-- Helper: for a correct AEAD cipher and a 12-byte nonce, `decrypt_with_key`
inverts `encrypt_with_key` under the same key. -/
theorem decrypt_inverts_encrypt (A : AEAD) (key data nonce : Bytes)
    (hA : A.Correct) (hnonce : nonce.length = NONCE_SIZE) :
    decrypt_with_key A (encrypt_with_key A nonce data key) key = .ok data := by
  unfold decrypt_with_key encrypt_with_key
  have hlen : ¬ (nonce ++ A.enc key nonce data).length < NONCE_SIZE := by
    simp [List.length_append, hnonce]
  rw [if_neg hlen, ← hnonce, take_append_self, drop_append_self, hA]

/-- C4: for every key `K` and plaintext `P`, `decrypt_with_key` applied to
`encrypt_with_key P K` (same key, the fresh 12-byte nonce prepended by
encryption) succeeds and returns exactly `P`. -/
theorem encrypt_decrypt_roundtrip (A : AEAD) (key data nonce : Bytes)
    (hA : A.Correct) (hnonce : nonce.length = NONCE_SIZE) :
    decrypt_with_key A (encrypt_with_key A nonce data key) key = .ok data :=
  decrypt_inverts_encrypt A key data nonce hA hnonce

/-- Witness for C4 at a concrete key, nonce and plaintext. -/
theorem encrypt_decrypt_roundtrip_witness :
    decrypt_with_key toyAEAD
      (encrypt_with_key toyAEAD [0,1,2,3,4,5,6,7,8,9,10,11] [42, 7] [99]) [99] =
      .ok [42, 7] :=
  encrypt_decrypt_roundtrip toyAEAD [99] [42, 7] [0,1,2,3,4,5,6,7,8,9,10,11]
    toyAEAD_correct (by decide)

/-- C7: `decrypt_with_key` rejects any input shorter than the 12-byte nonce
with a `CryptoError`, and any plaintext it does return comes from a
successful authenticated decryption of the tail (so it never returns
partial or unauthenticated plaintext on a failing input). -/
theorem decrypt_rejects_short_and_unauthenticated (A : AEAD) (key data : Bytes) :
    (data.length < NONCE_SIZE →
      decrypt_with_key A data key = .error (.CryptoError "Invalid encrypted data: too short")) ∧
    (∀ p, decrypt_with_key A data key = .ok p →
      NONCE_SIZE ≤ data.length ∧ A.dec key (data.take NONCE_SIZE) (data.drop NONCE_SIZE) = some p) := by
  constructor
  · intro h
    simp [decrypt_with_key, h]
  · intro p hp
    unfold decrypt_with_key at hp
    by_cases h : data.length < NONCE_SIZE
    · rw [if_pos h] at hp
      exact absurd hp (by simp)
    · rw [if_neg h] at hp
      refine ⟨Nat.le_of_not_lt h, ?_⟩
      cases hdec : A.dec key (data.take NONCE_SIZE) (data.drop NONCE_SIZE) with
      | none => rw [hdec] at hp; exact absurd hp (by simp)
      | some q => rw [hdec] at hp; simp at hp; rw [hp]

/-- Witness for C7 at a concrete 3-byte input: decryption rejects it. -/
theorem decrypt_rejects_short_witness :
    decrypt_with_key toyAEAD [0, 1, 2] [5] =
      .error (.CryptoError "Invalid encrypted data: too short") :=
  (decrypt_rejects_short_and_unauthenticated toyAEAD [5] [0, 1, 2]).1 (by decide)

/-- `AccountType` enum from `models.rs`. -/
inductive AccountType where
  | Social | Banking | Work | Personal | Email | Shopping | Gaming | Other
deriving DecidableEq, Repr

/-- `Account` struct from `models.rs`: strings as byte lists, `Uuid` and
`DateTime<Utc>` as naturals. -/
structure Account where
  id : Nat
  name : Bytes
  account_type : AccountType
  url : Option Bytes
  username : Option Bytes
  password : Bytes
  notes : Option Bytes
  tags : List Bytes
  created_at : Nat
  updated_at : Nat
  last_accessed : Option Nat
deriving DecidableEq, Repr

/-- `PasswordOptions` struct from `models.rs`. -/
structure PasswordOptions where
  length : Nat
  include_uppercase : Bool
  include_lowercase : Bool
  include_numbers : Bool
  include_special : Bool
  exclude_similar : Bool
  exclude_ambiguous : Bool
deriving DecidableEq, Repr

/-- `PasswordOptions::default` from `models.rs`. -/
def PasswordOptions.default : PasswordOptions :=
  { length := 16, include_uppercase := true, include_lowercase := true,
    include_numbers := true, include_special := true,
    exclude_similar := true, exclude_ambiguous := false }

/-- `VaultSettings` struct from `models.rs`. -/
structure VaultSettings where
  auto_lock_timeout : Nat
  require_confirmation : Bool
  auto_clear_clipboard : Bool
  clipboard_timeout : Nat
  show_strength_indicators : Bool
  default_password_options : PasswordOptions
deriving DecidableEq, Repr

/-- `VaultSettings::default` from `models.rs`. -/
def VaultSettings.default : VaultSettings :=
  { auto_lock_timeout := 15, require_confirmation := true,
    auto_clear_clipboard := true, clipboard_timeout := 30,
    show_strength_indicators := true,
    default_password_options := PasswordOptions.default }

/-- `VaultMetadata` struct from `models.rs`. -/
structure VaultMetadata where
  version : Bytes
  email : Bytes
  created_at : Nat
  last_modified : Nat
  account_count : Nat
  settings : VaultSettings
deriving DecidableEq, Repr

/-- `Vault` struct from `models.rs`; the `HashMap<Uuid, Account>` is modelled
as an association list with `HashMap` insert/remove semantics. -/
structure Vault where
  metadata : VaultMetadata
  accounts : List (Nat × Account)
  tags : List Bytes
deriving DecidableEq, Repr

/-- ASCII codes of the version string "1.0.0" used by `Vault::new`. -/
def versionBytes : Bytes := [49, 46, 48, 46, 48]

/-- `Vault::new` from `models.rs` (the `Utc::now()` timestamp is an explicit
parameter). -/
def Vault.new (email : Bytes) (now : Nat) : Vault :=
  { metadata :=
      { version := versionBytes, email := email, created_at := now,
        last_modified := now, account_count := 0,
        settings := VaultSettings.default },
    accounts := [], tags := [] }

/-- Insert with `HashMap::insert` semantics on an association list: replace
the value if the key is present, otherwise append the new binding. -/
def alistInsert (k : Nat) (a : Account) : List (Nat × Account) → List (Nat × Account)
  | [] => [(k, a)]
  | (k', a') :: t => if k' = k then (k, a) :: t else (k', a') :: alistInsert k a t

/-- Remove with `HashMap::remove` semantics: return the removed value (if
any) and the remaining association list. -/
def alistRemove (k : Nat) : List (Nat × Account) → Option Account × List (Nat × Account)
  | [] => (none, [])
  | (k', a') :: t =>
    if k' = k then (some a', t)
    else
      let r := alistRemove k t
      (r.1, (k', a') :: r.2)

/-- `Vault::add_account` from `models.rs`: insert keyed by the account id,
then set `account_count` to the map's size and refresh `last_modified`. -/
def Vault.add_account (v : Vault) (account : Account) (now : Nat) : Vault :=
  let accounts := alistInsert account.id account v.accounts
  { v with accounts := accounts,
           metadata := { v.metadata with account_count := accounts.length,
                                         last_modified := now } }

/-- `Vault::remove_account` from `models.rs`: remove by id; only when an
account was actually removed, set `account_count` to the map's size and
refresh `last_modified`. -/
def Vault.remove_account (v : Vault) (id : Nat) (now : Nat) : Vault × Option Account :=
  let r := alistRemove id v.accounts
  match r.1 with
  | some a =>
    ({ v with accounts := r.2,
              metadata := { v.metadata with account_count := r.2.length,
                                            last_modified := now } }, some a)
  | none => (v, none)

/-- Decoder type: consume a prefix of the input, return the value and the rest. -/
abbrev Dec (α : Type) := Bytes → Option (α × Bytes)

/-- Encode a natural as a single symbol. -/
def encNat (n : Nat) : Bytes := [n]

/-- Decode a natural. -/
def decNat : Dec Nat
  | [] => none
  | n :: r => some (n, r)

/-- Encode a boolean. -/
def encBool (b : Bool) : Bytes := [if b then 1 else 0]

/-- Decode a boolean. -/
def decBool : Dec Bool
  | 0 :: r => some (false, r)
  | 1 :: r => some (true, r)
  | _ => none

/-- Encode a byte string, length-prefixed. -/
def encBytes (s : Bytes) : Bytes := s.length :: s

/-- Decode a length-prefixed byte string. -/
def decBytes : Dec Bytes
  | [] => none
  | n :: r => if n ≤ r.length then some (r.take n, r.drop n) else none

/-- Encode an optional value with a presence tag. -/
def encOpt {α : Type} (f : α → Bytes) : Option α → Bytes
  | none => [0]
  | some x => 1 :: f x

/-- Decode an optional value. -/
def decOpt {α : Type} (f : Dec α) : Dec (Option α)
  | 0 :: r => some (none, r)
  | 1 :: r => (f r).map (fun p => (some p.1, p.2))
  | _ => none

/-- Concatenate the encodings of the elements of a list. -/
def encAll {α : Type} (f : α → Bytes) : List α → Bytes
  | [] => []
  | x :: t => f x ++ encAll f t

/-- Encode a list, length-prefixed. -/
def encList {α : Type} (f : α → Bytes) (l : List α) : Bytes :=
  l.length :: encAll f l

/-- Decode a fixed number of values. -/
def decCount {α : Type} (f : Dec α) : Nat → Dec (List α)
  | 0, r => some ([], r)
  | n + 1, r =>
    match f r with
    | none => none
    | some (x, r') =>
      match decCount f n r' with
      | none => none
      | some (xs, r'') => some (x :: xs, r'')

/-- Decode a length-prefixed list. -/
def decList {α : Type} (f : Dec α) : Dec (List α)
  | [] => none
  | n :: r => decCount f n r

/-- decNat round-trip. -/
@[simp] theorem decNat_enc (n : Nat) (rest : Bytes) :
    decNat (encNat n ++ rest) = some (n, rest) := rfl

/-- decBool round-trip. -/
@[simp] theorem decBool_enc (b : Bool) (rest : Bytes) :
    decBool (encBool b ++ rest) = some (b, rest) := by
  cases b <;> rfl

/-- decBytes round-trip. -/
@[simp] theorem decBytes_enc (s : Bytes) (rest : Bytes) :
    decBytes (encBytes s ++ rest) = some (s, rest) := by
  simp [decBytes, encBytes, take_append_self, drop_append_self]

/-- decOpt round-trip, given a round-tripping element codec. -/
theorem decOpt_enc {α : Type} (f : Dec α) (g : α → Bytes)
    (h : ∀ x rest, f (g x ++ rest) = some (x, rest)) (o : Option α) (rest : Bytes) :
    decOpt f (encOpt g o ++ rest) = some (o, rest) := by
  cases o with
  | none => rfl
  | some x => simp [encOpt, decOpt, h]

/-- decCount round-trip, given a round-tripping element codec. -/
theorem decCount_enc {α : Type} (f : Dec α) (g : α → Bytes)
    (h : ∀ x rest, f (g x ++ rest) = some (x, rest)) (l : List α) (rest : Bytes) :
    decCount f l.length (encAll g l ++ rest) = some (l, rest) := by
  induction l generalizing rest with
  | nil => rfl
  | cons x t ih => simp [encAll, decCount, h, ih]

/-- decList round-trip, given a round-tripping element codec. -/
theorem decList_enc {α : Type} (f : Dec α) (g : α → Bytes)
    (h : ∀ x rest, f (g x ++ rest) = some (x, rest)) (l : List α) (rest : Bytes) :
    decList f (encList g l ++ rest) = some (l, rest) := by
  simp [encList, decList, decCount_enc f g h]

/-- Encode an account type as its variant tag. -/
def encType (t : AccountType) : Bytes :=
  match t with
  | .Social => [0] | .Banking => [1] | .Work => [2] | .Personal => [3]
  | .Email => [4] | .Shopping => [5] | .Gaming => [6] | .Other => [7]

/-- Decode an account type tag. -/
def decType : Dec AccountType
  | 0 :: r => some (.Social, r)
  | 1 :: r => some (.Banking, r)
  | 2 :: r => some (.Work, r)
  | 3 :: r => some (.Personal, r)
  | 4 :: r => some (.Email, r)
  | 5 :: r => some (.Shopping, r)
  | 6 :: r => some (.Gaming, r)
  | 7 :: r => some (.Other, r)
  | _ => none

/-- decType round-trip. -/
@[simp] theorem decType_enc (t : AccountType) (rest : Bytes) :
    decType (encType t ++ rest) = some (t, rest) := by
  cases t <;> rfl

/-- decOpt/decBytes round-trip. -/
@[simp] theorem decOptBytes_enc (o : Option Bytes) (rest : Bytes) :
    decOpt decBytes (encOpt encBytes o ++ rest) = some (o, rest) :=
  decOpt_enc decBytes encBytes decBytes_enc o rest

/-- decOpt/decNat round-trip. -/
@[simp] theorem decOptNat_enc (o : Option Nat) (rest : Bytes) :
    decOpt decNat (encOpt encNat o ++ rest) = some (o, rest) :=
  decOpt_enc decNat encNat decNat_enc o rest

/-- decList/decBytes round-trip. -/
@[simp] theorem decListBytes_enc (l : List Bytes) (rest : Bytes) :
    decList decBytes (encList encBytes l ++ rest) = some (l, rest) :=
  decList_enc decBytes encBytes decBytes_enc l rest

/-- Encode an `Account`, field by field in declaration order. -/
def encAccount (a : Account) : Bytes :=
  encNat a.id ++ encBytes a.name ++ encType a.account_type ++
  encOpt encBytes a.url ++ encOpt encBytes a.username ++ encBytes a.password ++
  encOpt encBytes a.notes ++ encList encBytes a.tags ++
  encNat a.created_at ++ encNat a.updated_at ++ encOpt encNat a.last_accessed

/-- Decode an `Account`. -/
def decAccount : Dec Account := fun r0 =>
  (decNat r0).bind fun p1 =>
  (decBytes p1.2).bind fun p2 =>
  (decType p2.2).bind fun p3 =>
  (decOpt decBytes p3.2).bind fun p4 =>
  (decOpt decBytes p4.2).bind fun p5 =>
  (decBytes p5.2).bind fun p6 =>
  (decOpt decBytes p6.2).bind fun p7 =>
  (decList decBytes p7.2).bind fun p8 =>
  (decNat p8.2).bind fun p9 =>
  (decNat p9.2).bind fun p10 =>
  (decOpt decNat p10.2).bind fun p11 =>
  some (⟨p1.1, p2.1, p3.1, p4.1, p5.1, p6.1, p7.1, p8.1, p9.1, p10.1, p11.1⟩, p11.2)

/-- decAccount round-trip. -/
@[simp] theorem decAccount_enc (a : Account) (rest : Bytes) :
    decAccount (encAccount a ++ rest) = some (a, rest) := by
  unfold decAccount
  simp only [encAccount, List.append_assoc, decNat_enc, decBool_enc, decBytes_enc,
    decType_enc, decOptBytes_enc, decListBytes_enc, decOptNat_enc, Option.some_bind]

/-- Encode a keyed account entry of the accounts map. -/
def encEntry (p : Nat × Account) : Bytes := encNat p.1 ++ encAccount p.2

/-- Decode a keyed account entry. -/
def decEntry : Dec (Nat × Account) := fun r0 =>
  (decNat r0).bind fun p1 =>
  (decAccount p1.2).bind fun p2 =>
  some ((p1.1, p2.1), p2.2)

/-- decEntry round-trip. -/
@[simp] theorem decEntry_enc (p : Nat × Account) (rest : Bytes) :
    decEntry (encEntry p ++ rest) = some (p, rest) := by
  unfold decEntry
  simp only [encEntry, List.append_assoc, decNat_enc, decAccount_enc, Option.some_bind]

/-- Encode `PasswordOptions`. -/
def encPwOptions (p : PasswordOptions) : Bytes :=
  encNat p.length ++ encBool p.include_uppercase ++ encBool p.include_lowercase ++
  encBool p.include_numbers ++ encBool p.include_special ++
  encBool p.exclude_similar ++ encBool p.exclude_ambiguous

/-- Decode `PasswordOptions`. -/
def decPwOptions : Dec PasswordOptions := fun r0 =>
  (decNat r0).bind fun p1 =>
  (decBool p1.2).bind fun p2 =>
  (decBool p2.2).bind fun p3 =>
  (decBool p3.2).bind fun p4 =>
  (decBool p4.2).bind fun p5 =>
  (decBool p5.2).bind fun p6 =>
  (decBool p6.2).bind fun p7 =>
  some (⟨p1.1, p2.1, p3.1, p4.1, p5.1, p6.1, p7.1⟩, p7.2)

/-- decPwOptions round-trip. -/
@[simp] theorem decPwOptions_enc (p : PasswordOptions) (rest : Bytes) :
    decPwOptions (encPwOptions p ++ rest) = some (p, rest) := by
  unfold decPwOptions
  simp only [encPwOptions, List.append_assoc, decNat_enc, decBool_enc, Option.some_bind]

/-- Encode `VaultSettings`. -/
def encSettings (s : VaultSettings) : Bytes :=
  encNat s.auto_lock_timeout ++ encBool s.require_confirmation ++
  encBool s.auto_clear_clipboard ++ encNat s.clipboard_timeout ++
  encBool s.show_strength_indicators ++ encPwOptions s.default_password_options

/-- Decode `VaultSettings`. -/
def decSettings : Dec VaultSettings := fun r0 =>
  (decNat r0).bind fun p1 =>
  (decBool p1.2).bind fun p2 =>
  (decBool p2.2).bind fun p3 =>
  (decNat p3.2).bind fun p4 =>
  (decBool p4.2).bind fun p5 =>
  (decPwOptions p5.2).bind fun p6 =>
  some (⟨p1.1, p2.1, p3.1, p4.1, p5.1, p6.1⟩, p6.2)

/-- decSettings round-trip. -/
@[simp] theorem decSettings_enc (s : VaultSettings) (rest : Bytes) :
    decSettings (encSettings s ++ rest) = some (s, rest) := by
  unfold decSettings
  simp only [encSettings, List.append_assoc, decNat_enc, decBool_enc, decPwOptions_enc,
    Option.some_bind]

/-- Encode `VaultMetadata`. -/
def encMetadata (m : VaultMetadata) : Bytes :=
  encBytes m.version ++ encBytes m.email ++ encNat m.created_at ++
  encNat m.last_modified ++ encNat m.account_count ++ encSettings m.settings

/-- Decode `VaultMetadata`. -/
def decMetadata : Dec VaultMetadata := fun r0 =>
  (decBytes r0).bind fun p1 =>
  (decBytes p1.2).bind fun p2 =>
  (decNat p2.2).bind fun p3 =>
  (decNat p3.2).bind fun p4 =>
  (decNat p4.2).bind fun p5 =>
  (decSettings p5.2).bind fun p6 =>
  some (⟨p1.1, p2.1, p3.1, p4.1, p5.1, p6.1⟩, p6.2)

/-- decMetadata round-trip. -/
@[simp] theorem decMetadata_enc (m : VaultMetadata) (rest : Bytes) :
    decMetadata (encMetadata m ++ rest) = some (m, rest) := by
  unfold decMetadata
  simp only [encMetadata, List.append_assoc, decNat_enc, decBytes_enc, decSettings_enc,
    Option.some_bind]

/-- Serialize a `Vault`; models `serde_json::to_string_pretty` on the derived
`Serialize` instance of `Vault` as an injective, round-tripping encoding. -/
def serVault (v : Vault) : Bytes :=
  encMetadata v.metadata ++ encList encEntry v.accounts ++ encList encBytes v.tags

/-- Decode a `Vault`. -/
def decVault : Dec Vault := fun r0 =>
  (decMetadata r0).bind fun p1 =>
  (decList decEntry p1.2).bind fun p2 =>
  (decList decBytes p2.2).bind fun p3 =>
  some (⟨p1.1, p2.1, p3.1⟩, p3.2)

/-- decVault round-trip. -/
@[simp] theorem decVault_enc (v : Vault) (rest : Bytes) :
    decVault (serVault v ++ rest) = some (v, rest) := by
  unfold decVault
  simp only [serVault, List.append_assoc, decMetadata_enc, decListBytes_enc,
    decList_enc decEntry encEntry decEntry_enc, Option.some_bind]

/-- Deserialize a `Vault`; models `serde_json::from_slice`, which fails on
malformed input or trailing data, surfaced as `SerializationError`. -/
def deserVault (data : Bytes) : Except PassManError Vault :=
  match decVault data with
  | some (v, []) => .ok v
  | _ => .error (.SerializationError "invalid vault data")

/-- deserVault inverts serVault. -/
theorem deserVault_ser (v : Vault) : deserVault (serVault v) = .ok v := by
  have h := decVault_enc v []
  rw [List.append_nil] at h
  simp [deserVault, h]

/-- `CryptoManager` struct from `crypto.rs`: optional key and salt (the key
bytes of `SecureKey` and `Salt` are the contained byte strings). -/
structure CryptoManager where
  key : Option Bytes
  salt : Option Bytes

/-- `CryptoManager::encrypt` from `crypto.rs`: fail when no key is set,
otherwise encrypt with the stored key. -/
def CryptoManager.encrypt (c : CryptoManager) (A : AEAD) (nonce data : Bytes) :
    Except PassManError Bytes :=
  match c.key with
  | none => .error (.CryptoError "No encryption key set")
  | some k => .ok (encrypt_with_key A nonce data k)

/-- `VaultStorage::save_vault` from `storage.rs`, as the bytes that end up at
the canonical path: serialize the vault, encrypt it with the manager's key,
and write the manager's salt followed by the encrypted data (the temp-file
write, atomic rename and permission bits of the source do not change the
bytes).  Fails when no key or no salt is set, as in the source. -/
def save_vault (A : AEAD) (c : CryptoManager) (nonce : Bytes) (vault : Vault) :
    Except PassManError Bytes :=
  let vault_json := serVault vault
  match c.encrypt A nonce vault_json with
  | .error e => .error e
  | .ok encrypted_data =>
    match c.salt with
    | none => .error (.StorageError "No salt available for storage")
    | some salt => .ok (salt ++ encrypted_data)

/-- `VaultStorage::load_vault` from `storage.rs`: the vault file content is
`none` when the file does not exist; otherwise reject files shorter than the
16-byte salt, split salt from ciphertext, derive the key from the password
and the stored salt (`kdf` models the Argon2id derivation of
`CryptoManager::derive_key`, a deterministic function of password and salt),
decrypt, and deserialize. -/
def load_vault (A : AEAD) (kdf : Bytes → Bytes → Bytes) (file : Option Bytes)
    (master_password : Bytes) : Except PassManError Vault :=
  match file with
  | none => .error (.VaultNotFound "Vault not found")
  | some file_data =>
    if file_data.length < SALT_SIZE then
      .error (.StorageError "Vault file is corrupted: too small")
    else
      let salt := file_data.take SALT_SIZE
      let encrypted_data := file_data.drop SALT_SIZE
      let key := kdf master_password salt
      match decrypt_with_key A encrypted_data key with
      | .error e => .error e
      | .ok decrypted_data => deserVault decrypted_data

/-- C1: saving any vault document with a `CryptoManager` whose key and salt
were derived from password `p`, then loading the written file with the same
password `p`, succeeds and returns a document equal to the one saved (all
metadata, records and fields included). -/
theorem save_load_roundtrip (A : AEAD) (kdf : Bytes → Bytes → Bytes) (v : Vault)
    (p salt nonce : Bytes) (c : CryptoManager) (hA : A.Correct)
    (hsalt : salt.length = SALT_SIZE) (hnonce : nonce.length = NONCE_SIZE)
    (hkey : c.key = some (kdf p salt)) (hcsalt : c.salt = some salt) :
    ∃ file, save_vault A c nonce v = .ok file ∧
      load_vault A kdf (some file) p = .ok v := by
  refine ⟨salt ++ encrypt_with_key A nonce (serVault v) (kdf p salt), ?_, ?_⟩
  · simp [save_vault, CryptoManager.encrypt, hkey, hcsalt]
  · simp only [load_vault]
    have hlen : ¬ (salt ++ encrypt_with_key A nonce (serVault v) (kdf p salt)).length
        < SALT_SIZE := by
      simp [List.length_append, hsalt]
    rw [if_neg hlen, ← hsalt, take_append_self, drop_append_self,
      decrypt_inverts_encrypt A (kdf p salt) (serVault v) nonce hA hnonce]
    exact deserVault_ser v

/-- Key derivation instance used for witnesses: concatenate password and salt. -/
def toyKdf (password salt : Bytes) : Bytes := password ++ salt

/-- A concrete vault with one record, used to instantiate the C1 witness. -/
def witnessVault : Vault :=
  (Vault.new [97, 64, 98] 5).add_account
    { id := 3, name := [71], account_type := .Personal, url := none,
      username := some [117], password := [112, 119], notes := none,
      tags := [[116]], created_at := 6, updated_at := 6, last_accessed := none } 7

/-- Witness for C1: a concrete one-record vault survives a save/load cycle
under the toy AEAD and key derivation instances. -/
theorem save_load_roundtrip_witness :
    ∃ file,
      save_vault toyAEAD
        ⟨some (toyKdf [8, 9] (List.replicate 16 0)), some (List.replicate 16 0)⟩
        (List.replicate 12 1) witnessVault = .ok file ∧
      load_vault toyAEAD toyKdf (some file) [8, 9] = .ok witnessVault :=
  save_load_roundtrip toyAEAD toyKdf witnessVault [8, 9] (List.replicate 16 0)
    (List.replicate 12 1)
    ⟨some (toyKdf [8, 9] (List.replicate 16 0)), some (List.replicate 16 0)⟩
    toyAEAD_correct (by decide) (by decide) rfl rfl

/-- Helper: whenever the AEAD decryption step fails on a sufficiently long
vault file (wrong derived key or tampered bytes alike), `load_vault` returns
an error of category `crypto`. -/
theorem load_vault_aead_failure (A : AEAD) (kdf : Bytes → Bytes → Bytes)
    (f pw : Bytes) (hlen : SALT_SIZE ≤ f.length)
    (hdec : A.dec (kdf pw (f.take SALT_SIZE)) ((f.drop SALT_SIZE).take NONCE_SIZE)
      ((f.drop SALT_SIZE).drop NONCE_SIZE) = none) :
    resultCategory (load_vault A kdf (some f) pw) = some .crypto := by
  simp only [load_vault]
  rw [if_neg (Nat.not_lt.mpr hlen)]
  unfold decrypt_with_key
  by_cases hshort : (f.drop SALT_SIZE).length < NONCE_SIZE
  · rw [if_pos hshort]
    rfl
  · rw [if_neg hshort, hdec]
    rfl

/-- C3: for files at least as long as the salt, a load failing because the
password is wrong and a load failing because the ciphertext was tampered
with (both surfacing as an AEAD authentication failure) produce errors of
the same category, `CryptoError` — the two causes are indistinguishable by
error category. -/
theorem wrong_password_and_corruption_same_category (A : AEAD)
    (kdf : Bytes → Bytes → Bytes) (f1 f2 pw1 pw2 : Bytes)
    (h1 : SALT_SIZE ≤ f1.length) (h2 : SALT_SIZE ≤ f2.length)
    (hd1 : A.dec (kdf pw1 (f1.take SALT_SIZE)) ((f1.drop SALT_SIZE).take NONCE_SIZE)
      ((f1.drop SALT_SIZE).drop NONCE_SIZE) = none)
    (hd2 : A.dec (kdf pw2 (f2.take SALT_SIZE)) ((f2.drop SALT_SIZE).take NONCE_SIZE)
      ((f2.drop SALT_SIZE).drop NONCE_SIZE) = none) :
    resultCategory (load_vault A kdf (some f1) pw1) = some .crypto ∧
    resultCategory (load_vault A kdf (some f2) pw2) = some .crypto ∧
    resultCategory (load_vault A kdf (some f1) pw1) =
      resultCategory (load_vault A kdf (some f2) pw2) := by
  have a1 := load_vault_aead_failure A kdf f1 pw1 h1 hd1
  have a2 := load_vault_aead_failure A kdf f2 pw2 h2 hd2
  exact ⟨a1, a2, a1.trans a2.symm⟩

/-- Witness for C3: a fixed vault file read with a wrong password, and the
same file with its ciphertext tampered read with the right password, both
fail with category `crypto`. -/
theorem wrong_password_and_corruption_same_category_witness :
    resultCategory (load_vault toyAEAD toyKdf
      (some (List.replicate 16 0 ++ (List.replicate 12 0 ++ [1, 42]))) [2]) =
      some .crypto ∧
    resultCategory (load_vault toyAEAD toyKdf
      (some (List.replicate 16 0 ++ (List.replicate 12 0 ++ [50, 42]))) [1]) =
      some .crypto ∧
    resultCategory (load_vault toyAEAD toyKdf
      (some (List.replicate 16 0 ++ (List.replicate 12 0 ++ [1, 42]))) [2]) =
    resultCategory (load_vault toyAEAD toyKdf
      (some (List.replicate 16 0 ++ (List.replicate 12 0 ++ [50, 42]))) [1]) :=
  wrong_password_and_corruption_same_category toyAEAD toyKdf
    (List.replicate 16 0 ++ (List.replicate 12 0 ++ [1, 42]))
    (List.replicate 16 0 ++ (List.replicate 12 0 ++ [50, 42]))
    [2] [1] (by decide) (by decide) (by decide) (by decide)

/-- `AuthSession` struct from `auth.rs`, with `Instant` as a natural number
of seconds. -/
structure AuthSession where
  created_at : Nat
  expires_at : Nat
  is_active : Bool
  failed_attempts : Nat
  last_activity : Nat
deriving DecidableEq, Repr

/-- `AuthSession::new` from `auth.rs` (the `Instant::now()` reading is the
explicit `now` parameter; the timeout is converted from minutes to seconds). -/
def AuthSession.new (timeout_minutes : Nat) (now : Nat) : AuthSession :=
  { created_at := now, expires_at := now + timeout_minutes * 60,
    is_active := true, failed_attempts := 0, last_activity := now }

/-- `AuthSession::update_activity` from `auth.rs`. -/
def AuthSession.update_activity (s : AuthSession) (now : Nat) : AuthSession :=
  { s with last_activity := now }

/-- `AuthSession::extend_timeout` from `auth.rs`: the new deadline is
`last_activity` plus the timeout; the function does not read the clock. -/
def AuthSession.extend_timeout (s : AuthSession) (timeout_minutes : Nat) : AuthSession :=
  { s with expires_at := s.last_activity + timeout_minutes * 60 }

/-- `AuthSession::record_failed_attempt` from `auth.rs`. -/
def AuthSession.record_failed_attempt (s : AuthSession) : AuthSession :=
  { s with failed_attempts := s.failed_attempts + 1 }

/-- `AuthSession::is_locked_out` from `auth.rs`: `failed_attempts >= max_attempts`. -/
def AuthSession.is_locked_out (s : AuthSession) (max_attempts : Nat) : Bool :=
  decide (max_attempts ≤ s.failed_attempts)

/-- Contract of the external Argon2 dependency, modelled so that
`CryptoManager::verify_password` succeeds exactly on the password the hash
was created from: the hash of a password is represented by the password
itself. -/
def hash_password (password : Bytes) : Bytes := password

/-- `CryptoManager::verify_password` under the Argon2 model above: verifying
a password against a stored hash succeeds iff the hash is the hash of that
password. -/
def verify_password (password stored_hash : Bytes) : Bool :=
  decide (hash_password password = stored_hash)

/-- `AuthManager` struct from `auth.rs`. -/
structure AuthManager where
  session : Option AuthSession
  crypto : CryptoManager
  max_failed_attempts : Nat
  session_timeout_minutes : Nat

/-- `AuthManager::new` from `auth.rs`. -/
def AuthManager.new (max_failed_attempts session_timeout_minutes : Nat) : AuthManager :=
  { session := none, crypto := ⟨none, none⟩,
    max_failed_attempts := max_failed_attempts,
    session_timeout_minutes := session_timeout_minutes }

/-- `AuthManager::authenticate` from `auth.rs`: refuse when the existing
session is locked out; otherwise hash the supplied password with
`hash_password` and verify the supplied password against that freshly
computed hash; on success install a fresh session, on failure record a
failed attempt on the existing or a newly created tracking session. -/
def AuthManager.authenticate (m : AuthManager) (master_password : Bytes) (now : Nat) :
    AuthManager × Except PassManError Bool :=
  let locked :=
    match m.session with
    | some s => s.is_locked_out m.max_failed_attempts
    | none => false
  if locked then
    (m, .error (.AuthenticationFailed "Too many failed attempts. Please try again later."))
  else
    let password_hash := hash_password master_password
    let is_valid := verify_password master_password password_hash
    if is_valid then
      ({ m with session := some (AuthSession.new m.session_timeout_minutes now) }, .ok true)
    else
      match m.session with
      | some s =>
        ({ m with session := some s.record_failed_attempt },
          .error (.AuthenticationFailed "Invalid master password"))
      | none =>
        ({ m with
            session := some (AuthSession.new m.session_timeout_minutes now).record_failed_attempt },
          .error (.AuthenticationFailed "Invalid master password"))

/-- `AuthManager::failed_attempts` from `auth.rs`. -/
def AuthManager.failed_attempts (m : AuthManager) : Nat :=
  match m.session with
  | some s => s.failed_attempts
  | none => 0

/-- `AuthManager::is_locked_out` from `auth.rs`. -/
def AuthManager.locked_out (m : AuthManager) : Bool :=
  match m.session with
  | some s => s.is_locked_out m.max_failed_attempts
  | none => false

/-- ASCII codes of the string "wrong". -/
def wrongBytes : Bytes := [119, 114, 111, 110, 103]

/-- ASCII codes of the string "CorrectHorse1!". -/
def correctBytes : Bytes := [67, 111, 114, 114, 101, 99, 116, 72, 111, 114, 115, 101, 49, 33]

/-- C2 (counter-demonstration): with `max_failed_attempts = 3`, every
`authenticate` call — including three calls with a wrong password — returns
`Ok(true)`, never increments `failed_attempts` past 0 and never locks out,
because the code verifies the supplied password against a hash computed
from that same supplied password. -/
theorem authenticate_accepts_any_password :
    ((AuthManager.new 3 15).authenticate wrongBytes 1).2 = .ok true ∧
    ((((AuthManager.new 3 15).authenticate wrongBytes 1).1.authenticate wrongBytes 2).2 = .ok true) ∧
    (((((AuthManager.new 3 15).authenticate wrongBytes 1).1.authenticate wrongBytes 2).1.authenticate
        wrongBytes 3).2 = .ok true) ∧
    (((((AuthManager.new 3 15).authenticate wrongBytes 1).1.authenticate wrongBytes 2).1.authenticate
        wrongBytes 3).1.failed_attempts = 0) ∧
    (((((AuthManager.new 3 15).authenticate wrongBytes 1).1.authenticate wrongBytes 2).1.authenticate
        wrongBytes 3).1.locked_out = false) ∧
    ((((((AuthManager.new 3 15).authenticate wrongBytes 1).1.authenticate wrongBytes 2).1.authenticate
        wrongBytes 3).1.authenticate correctBytes 4).2 = .ok true) := by
  refine ⟨rfl, rfl, rfl, rfl, rfl, rfl⟩

/-- Operations a caller can perform on a live `AuthSession`. -/
inductive SessionOp where
  | update (now : Nat)
  | extend (timeout_minutes : Nat)

/-- Apply a session operation. -/
def applySessionOp (s : AuthSession) : SessionOp → AuthSession
  | .update now => s.update_activity now
  | .extend t => s.extend_timeout t

/-- Validity of a session operation relative to the session creation time
`t0`: the monotone clock never reads earlier than `t0`, and extensions use a
positive number of minutes. -/
def SessionOp.Valid (t0 : Nat) : SessionOp → Prop
  | .update now => t0 ≤ now
  | .extend t => 1 ≤ t

/-- Helper invariant: along any valid operation sequence the creation time is
fixed, the last activity never precedes it, and expiry stays strictly after
creation. -/
theorem session_ops_invariant (t0 : Nat) (ops : List SessionOp) :
    ∀ s : AuthSession, (∀ op ∈ ops, op.Valid t0) →
      s.created_at = t0 → t0 ≤ s.last_activity → s.created_at < s.expires_at →
      (ops.foldl applySessionOp s).created_at = t0 ∧
      t0 ≤ (ops.foldl applySessionOp s).last_activity ∧
      (ops.foldl applySessionOp s).created_at < (ops.foldl applySessionOp s).expires_at := by
  induction ops with
  | nil => exact fun s _ hc hl he => ⟨hc, hl, he⟩
  | cons op rest ih =>
    intro s hops hc hl he
    have hop : op.Valid t0 := hops op (List.mem_cons_self op rest)
    have hrest : ∀ o ∈ rest, o.Valid t0 := fun o ho => hops o (List.mem_cons_of_mem op ho)
    cases op with
    | update now =>
      exact ih (s.update_activity now) hrest hc hop he
    | extend t =>
      refine ih (s.extend_timeout t) hrest hc hl ?_
      have h1 : s.created_at ≤ s.last_activity := hc ▸ hl
      have h2 : 0 < t * 60 := Nat.mul_pos hop (by decide)
      exact Nat.lt_of_le_of_lt h1 (Nat.lt_add_of_pos_right h2)

/-- C8 counterexample: `AuthSession::new(0)` (timeout 0 is a legal `u32`)
produces a session whose `expires_at` equals `created_at`, so `expires_at`
is not strictly later than `created_at`. -/
theorem session_new_zero_timeout_not_strict :
    ¬ (AuthSession.new 0 7).created_at < (AuthSession.new 0 7).expires_at := by
  decide

/-- C8 amended: for every session created with a positive timeout, after any
sequence of `update_activity` calls at clock readings not earlier than the
creation instant and `extend_timeout` calls with positive timeouts,
`expires_at` is strictly later than `created_at`. -/
theorem session_expiry_after_creation (t0 tm : Nat) (htm : 1 ≤ tm)
    (ops : List SessionOp) (hops : ∀ op ∈ ops, op.Valid t0) :
    (ops.foldl applySessionOp (AuthSession.new tm t0)).created_at <
    (ops.foldl applySessionOp (AuthSession.new tm t0)).expires_at := by
  have h := session_ops_invariant t0 ops (AuthSession.new tm t0) hops rfl
    (Nat.le_refl t0)
    (by
      show t0 < t0 + tm * 60
      have : 0 < tm * 60 := Nat.mul_pos htm (by decide)
      exact Nat.lt_add_of_pos_right this)
  exact h.2.2

/-- Witness for the amended C8 at a concrete session history. -/
theorem session_expiry_after_creation_witness :
    ([SessionOp.update 9, SessionOp.extend 2].foldl applySessionOp
      (AuthSession.new 1 4)).created_at <
    ([SessionOp.update 9, SessionOp.extend 2].foldl applySessionOp
      (AuthSession.new 1 4)).expires_at :=
  session_expiry_after_creation 4 1 (by decide) [SessionOp.update 9, SessionOp.extend 2]
    (by
      intro op hop
      cases hop with
      | head => exact (by decide : (4:Nat) ≤ 9)
      | tail _ h2 =>
        cases h2 with
        | head => exact (by decide : (1:Nat) ≤ 2)
        | tail _ h3 => cases h3)

/-- C9: `extend_timeout(t)` sets `expires_at` to `last_activity` plus `t`
minutes, and therefore not to `now` plus `t` minutes for any current time
differing from `last_activity`. -/
theorem extend_timeout_uses_last_activity (s : AuthSession) (t now : Nat) :
    (s.extend_timeout t).expires_at = s.last_activity + t * 60 ∧
    (s.last_activity ≠ now → (s.extend_timeout t).expires_at ≠ now + t * 60) := by
  refine ⟨rfl, ?_⟩
  intro hne heq
  exact hne (Nat.add_right_cancel heq)

/-- Witness for C9: a concrete session whose last activity is 300 extended at
current time 900 expires at 300 + 120, not at 900 + 120. -/
theorem extend_timeout_uses_last_activity_witness :
    ((AuthSession.update_activity (AuthSession.new 5 100) 300).extend_timeout 2).expires_at =
      300 + 2 * 60 ∧
    ((AuthSession.update_activity (AuthSession.new 5 100) 300).extend_timeout 2).expires_at ≠
      900 + 2 * 60 :=
  ⟨(extend_timeout_uses_last_activity (AuthSession.update_activity (AuthSession.new 5 100) 300)
      2 900).1,
   (extend_timeout_uses_last_activity (AuthSession.update_activity (AuthSession.new 5 100) 300)
      2 900).2 (by decide)⟩

/-- Account-level operations a caller can perform on a `Vault`. -/
inductive VaultOp where
  | add (account : Account) (now : Nat)
  | remove (id : Nat) (now : Nat)

/-- Apply a vault operation (`add_account` / `remove_account`). -/
def applyVaultOp (v : Vault) : VaultOp → Vault
  | .add a now => v.add_account a now
  | .remove id now => (v.remove_account id now).1

/-- The persisted-count invariant: `metadata.account_count` equals the number
of entries of the accounts map. -/
def Vault.CountInvariant (v : Vault) : Prop :=
  v.metadata.account_count = v.accounts.length

/-- Helper: every single vault operation preserves the count invariant. -/
theorem applyVaultOp_count (v : Vault) (op : VaultOp) (h : v.CountInvariant) :
    (applyVaultOp v op).CountInvariant := by
  cases op with
  | add a now =>
    simp [applyVaultOp, Vault.add_account, Vault.CountInvariant]
  | remove id now =>
    simp only [applyVaultOp, Vault.remove_account]
    cases hr : (alistRemove id v.accounts).1 with
    | some a => simp [Vault.CountInvariant]
    | none => exact h

/-- C10: starting from `Vault::new` and applying any sequence of
`add_account` and `remove_account` calls, `metadata.account_count` equals
the number of entries of the accounts map. -/
theorem account_count_tracks_accounts (email : Bytes) (t0 : Nat) (ops : List VaultOp) :
    (ops.foldl applyVaultOp (Vault.new email t0)).metadata.account_count =
    (ops.foldl applyVaultOp (Vault.new email t0)).accounts.length := by
  have hstep : ∀ (l : List VaultOp) (v : Vault), v.CountInvariant →
      (l.foldl applyVaultOp v).CountInvariant := by
    intro l
    induction l with
    | nil => exact fun v h => h
    | cons op rest ih => exact fun v h => ih (applyVaultOp v op) (applyVaultOp_count v op h)
  exact hstep ops (Vault.new email t0) rfl

/-- File names are lists of characters. -/
abbrev FileName := List Char

/-- Canonical vault file name `<name>.vault` built by `VaultStorage::new`. -/
def vaultFileName (vault_name : FileName) : FileName :=
  vault_name ++ ".vault".toList

/-- Backup file name `vault_backup_<timestamp>.vault` built by
`VaultStorage::create_backup`. -/
def backupFileName (timestamp : FileName) : FileName :=
  "vault_backup_".toList ++ timestamp ++ ".vault".toList

/-- The vault directory as the names of its vault files and of the files of
its `backups` subdirectory. -/
structure DirState where
  vaultFiles : List FileName
  backupFiles : List FileName
deriving DecidableEq, Repr

/-- `VaultStorage::delete_vault` from `storage.rs`: remove the canonical file
`<name>.vault`, and remove exactly those backup files whose name ends with
`_<name>.vault`. -/
def delete_vault (vault_name : FileName) (s : DirState) : DirState :=
  { vaultFiles := s.vaultFiles.filter (fun f => !(f == vaultFileName vault_name)),
    backupFiles := s.backupFiles.filter
      (fun f => !(List.isSuffixOf ("_".toList ++ vault_name ++ ".vault".toList) f)) }

/-- C5 (counter-demonstration): deleting vault `myvault` removes the
canonical file but leaves the backup `vault_backup_20240101_120000.vault`
that `create_backup` made for it, because that name does not end with
`_myvault.vault`. -/
theorem delete_vault_leaves_backups :
    delete_vault "myvault".toList
      ⟨[vaultFileName "myvault".toList], [backupFileName "20240101_120000".toList]⟩ =
    ⟨[], [backupFileName "20240101_120000".toList]⟩ := by
  decide

/-- A backup file in the backup directory: its modification time and content. -/
structure BackupFile where
  mtime : Nat
  data : Bytes

/-- Insert keeping the list sorted by modification time, newest first. -/
def insertByMtimeDesc (b : BackupFile) : List BackupFile → List BackupFile
  | [] => [b]
  | x :: t => if x.mtime ≤ b.mtime then b :: x :: t else x :: insertByMtimeDesc b t

/-- Sort backups by modification time, newest first (the sort-then-reverse of
`cleanup_old_backups` in `storage.rs`). -/
def sortByMtimeDesc : List BackupFile → List BackupFile
  | [] => []
  | x :: t => insertByMtimeDesc x (sortByMtimeDesc t)

/-- `VaultStorage::cleanup_old_backups` from `storage.rs`: order the backup
files newest first and delete everything after the first 10. -/
def cleanup_old_backups (backups : List BackupFile) : List BackupFile :=
  (sortByMtimeDesc backups).take 10

/-- `VaultStorage::create_backup` from `storage.rs`: nothing to do when no
vault file exists; otherwise copy the vault file into the backup directory
with the current timestamp and run the rotation. -/
def create_backup (vault : Option Bytes) (backups : List BackupFile) (now : Nat) :
    List BackupFile :=
  match vault with
  | none => backups
  | some d => cleanup_old_backups ({ mtime := now, data := d } :: backups)

/-- The vault file and its backup directory, as acted on by `save_vault`. -/
structure StorageState where
  vault : Option Bytes
  backups : List BackupFile

/-- `VaultStorage::save_vault` from `storage.rs`, restricted to its effect on
the file system: back up the existing vault file first (with rotation),
then atomically replace the vault file with the new content. -/
def save_vault_fs (s : StorageState) (data : Bytes) (now : Nat) : StorageState :=
  let backups := if s.vault.isSome then create_backup s.vault s.backups now else s.backups
  { vault := some data, backups := backups }

/-- C6: starting with no vault file and an empty backup directory, after 11
successive saves (at strictly increasing timestamps 1..11) exactly 10
backup files remain, and they are the 10 most recent ones — the backups
taken at times 2..11, newest first after rotation's ordering. -/
theorem eleven_saves_keep_ten_backups (d : Nat → Bytes) :
    ((List.range 11).foldl (fun s i => save_vault_fs s (d i) (i + 1))
      ⟨none, []⟩).backups.length = 10 ∧
    ((List.range 11).foldl (fun s i => save_vault_fs s (d i) (i + 1))
      ⟨none, []⟩).backups.map BackupFile.mtime = [11, 10, 9, 8, 7, 6, 5, 4, 3, 2] := by
  have hr : List.range 11 = [0, 1, 2, 3, 4, 5, 6, 7, 8, 9, 10] := rfl
  rw [hr]
  simp [save_vault_fs, create_backup, cleanup_old_backups, sortByMtimeDesc,
    insertByMtimeDesc]
